import Mathlib

/-!
Verification of the break-condition, photon-background and particle-mass
components of the CRPropa3 excerpt.

Real numbers (C++ `double`) are modelled as rationals; each `process`
method of the BreakCondition family is embedded as a function returning the
list of protocol calls it performs (reject and limit-next-step), translated
from src/src/module/BreakCondition.cpp. Candidate state and the reject
protocol itself (whose code, Candidate.h and BreakCondition.h, is not part
of the excerpt) are modelled from the spec where a claim needs them.
-/

/-- Observable protocol call performed by a break-condition `process` on a
Candidate: the uniform reject protocol, or limit-next-step with a value. -/
inductive BCAction where
  | reject : BCAction
  | limitNextStep : ℚ → BCAction
deriving DecidableEq

/-- Number of reject-protocol invocations in a trace of protocol calls. -/
def countRejects (as : List BCAction) : Nat :=
  as.countP fun a =>
    match a with
    | BCAction.reject => true
    | _ => false

/-- Embedding of MinimumEnergy::process (BreakCondition.cpp lines 79-84):
if the current energy is strictly above minEnergy the call returns doing
nothing, otherwise it performs the reject protocol. -/
def MinimumEnergy.process (minEnergy energy : ℚ) : List BCAction :=
  if minEnergy < energy then [] else [BCAction.reject]

/-- Embedding of MaximumTrajectoryLength::process (BreakCondition.cpp lines
42-64). The position type and the Euclidean distance of Vector3d are kept
abstract as parameters. When observer positions are configured and no
observer is within the remaining length budget, the candidate is rejected;
otherwise the trajectory-length check runs: reject when the length reached
maxLength, else limit the next step to the remaining budget. -/
def MaximumTrajectoryLength.process {P : Type} (dist : P → P → ℚ)
    (maxLength : ℚ) (observerPositions : List P)
    (length : ℚ) (position : P) : List BCAction :=
  let inRange := observerPositions.any fun o =>
    decide (dist position o + length < maxLength)
  if observerPositions.isEmpty = false ∧ inRange = false then
    [BCAction.reject]
  else if maxLength ≤ length then
    [BCAction.reject]
  else
    [BCAction.limitNextStep (maxLength - length)]

/-- Embedding of MinimumEnergyPerParticleId::process (BreakCondition.cpp
lines 202-216). The two aligned vectors particleIds and minEnergies are
modelled as one list of pairs (add pushes to both in lockstep). The loop
scans entries in order; on a matching id it rejects when the energy is
below that entry's threshold and keeps scanning, otherwise it returns; when
the scan falls off the end the fallback threshold minEnergyOthers is
checked. -/
def MinimumEnergyPerParticleId.process (entries : List (Int × ℚ))
    (minEnergyOthers : ℚ) (id : Int) (energy : ℚ) : List BCAction :=
  match entries with
  | [] => if energy < minEnergyOthers then [BCAction.reject] else []
  | (pid, thr) :: rest =>
    if id = pid then
      if energy < thr then
        BCAction.reject ::
          MinimumEnergyPerParticleId.process rest minEnergyOthers id energy
      else []
    else MinimumEnergyPerParticleId.process rest minEnergyOthers id energy

/-- Embedding of DetectionLength::process (BreakCondition.cpp lines
255-264): reject when the trajectory length is at or past detLength while
the previous position (length minus the current step) was still before it;
otherwise limit the next step to detLength minus the length. -/
def DetectionLength.process (detLength length step : ℚ) : List BCAction :=
  if detLength ≤ length ∧ length - step < detLength then
    [BCAction.reject]
  else
    [BCAction.limitNextStep (detLength - length)]

/-- Embedding of the base-class PhotonField::getRedshiftScaling
(PhotonBackground.h lines 40-42): the default implementation, inherited by
every field that does not override it, returns 1 for every redshift. -/
def PhotonField.getRedshiftScaling (_z : ℚ) : ℚ := 1

/-- Modelled from the spec: the per-instance reject configuration of a
break condition (rejectFlagKey, rejectFlagValue, makeRejectedInactive and
an optional chained reject-action Module), declared in BreakCondition.h
which is not part of the excerpt. The chained Module is modelled by
whether one is configured; its invocations are counted. -/
structure RejectConfig where
  rejectFlagKey : String
  rejectFlagValue : String
  makeRejectedInactive : Bool
  hasRejectAction : Bool

/-- Modelled from the spec: the Candidate record (Candidate.h is not part
of the excerpt): current particle id and energy, trajectory bookkeeping,
the next-step bound, the active flag and the string tag map (last write
wins). rejectActionCount counts invocations of a chained reject-action
Module on this candidate. -/
structure Candidate where
  id : Int
  energy : ℚ
  trajectoryLength : ℚ
  currentStep : ℚ
  nextStep : ℚ
  active : Bool
  tags : String → Option String
  rejectActionCount : Nat

/-- Modelled from the spec: Candidate setTag, last write wins. -/
def setTag (key value : String) (tags : String → Option String) :
    String → Option String :=
  fun k => if k = key then some value else tags k

/-- Modelled from the spec: the uniform reject protocol of the
BreakCondition family: set tag[rejectFlagKey] = rejectFlagValue, set the
candidate inactive when configured, and invoke the chained reject-action
Module when one is configured. -/
def rejectProtocol (cfg : RejectConfig) (c : Candidate) : Candidate :=
  { c with
    tags := setTag cfg.rejectFlagKey cfg.rejectFlagValue c.tags,
    active := if cfg.makeRejectedInactive then false else c.active,
    rejectActionCount :=
      c.rejectActionCount + (if cfg.hasRejectAction then 1 else 0) }

/-- Modelled from the spec: Candidate limitNextStep sets the step bound to
the minimum of the current bound and the given value. -/
def limitNextStep (v : ℚ) (c : Candidate) : Candidate :=
  { c with nextStep := min c.nextStep v }

/-- Applies one protocol call to a Candidate. -/
def applyAction (cfg : RejectConfig) (c : Candidate) : BCAction → Candidate
  | BCAction.reject => rejectProtocol cfg c
  | BCAction.limitNextStep v => limitNextStep v c

/-- Applies a trace of protocol calls to a Candidate, in order. -/
def runActions (cfg : RejectConfig) (as : List BCAction) (c : Candidate) :
    Candidate :=
  as.foldl (applyAction cfg) c

/-- MinimumEnergy::process as a state transformation on the Candidate. -/
def MinimumEnergy.run (cfg : RejectConfig) (minEnergy : ℚ) (c : Candidate) :
    Candidate :=
  runActions cfg (MinimumEnergy.process minEnergy c.energy) c

/-- Modelled from the spec: the nucleus identity code encodes charge Z and
mass number A through a stable encoding/decoding pair (ParticleID.h is not
part of the excerpt). -/
def nucleusId (a z : Nat) : Int := 1000000000 + z * 10000 + a * 10

/-- Modelled from the spec: decodes the charge number Z from a nucleus
identity code. -/
def chargeNumberFromNucleusId (id : Int) : Int := (id / 10000) % 1000

/-- Modelled from the spec: decodes the mass number A from a nucleus
identity code. -/
def massNumberFromNucleusId (id : Int) : Int := (id / 10) % 1000

/-- Embedding of nucleusMass (ParticleMass.cpp lines 40-47). The loaded
nuclear-mass table is the flat vector indexed by Z * 31 + N; a stored mass
of 0 marks an absent entry and raises a data-lookup error carrying the
identity code, otherwise the stored mass is returned. -/
def nucleusMass (table : List ℚ) (id : Int) : Except String ℚ :=
  let z := chargeNumberFromNucleusId id
  let n := massNumberFromNucleusId id - z
  let mass := table.getD (z * 31 + n).toNat 0
  if mass = 0 then
    Except.error ("getNucleusMass: nucleus not found " ++ toString id)
  else
    Except.ok mass

/-- The stored table entry that nucleusMass reads for a given id. -/
def nuclearMassEntry (table : List ℚ) (id : Int) : ℚ :=
  let z := chargeNumberFromNucleusId id
  let n := massNumberFromNucleusId id - z
  table.getD (z * 31 + n).toNat 0

/-- Table used in the nucleusMass witness: the (Z=2, N=2) slot at flat
index 64 holds a positive mass, all earlier slots are empty. -/
def heliumMassTable : List ℚ := List.replicate 64 0 ++ [3728]

/-- Reject configuration used in the idempotence witness. -/
def witnessConfig : RejectConfig :=
  { rejectFlagKey := "Rejected", rejectFlagValue := "MinimumEnergy",
    makeRejectedInactive := true, hasRejectAction := false }

/-- Candidate used in the idempotence witness. -/
def witnessCandidate : Candidate :=
  { id := 1000010010, energy := 3, trajectoryLength := 0, currentStep := 1,
    nextStep := 1, active := true, tags := fun _ => none,
    rejectActionCount := 0 }

/-- C1 counterexample: with minEnergy = 5, a Candidate whose current
energy is exactly 5 IS rejected by MinimumEnergy::process, because
survival requires energy strictly greater than minEnergy. -/
theorem c1_counterexample_equal_energy_rejected :
    MinimumEnergy.process 5 5 = [BCAction.reject] := by
  norm_num [MinimumEnergy.process]

/-- C1 (amended): MinimumEnergy::process rejects a Candidate exactly when
its current energy is less than or equal to minEnergy; the strict
comparison guards survival, so energy equal to minEnergy is rejected and
energy strictly below it is rejected. -/
theorem c1_minimumEnergy_rejects_iff_le (minEnergy energy : ℚ) :
    MinimumEnergy.process minEnergy energy = [BCAction.reject] ↔
      energy ≤ minEnergy := by
  by_cases h : minEnergy < energy
  · simp [MinimumEnergy.process, h, not_le.mpr h]
  · simp [MinimumEnergy.process, h, not_lt.mp h]

/-- C1 witness: a Candidate with energy 4.999 is rejected at minEnergy 5. -/
theorem c1_minimumEnergy_rejects_iff_le_witness :
    MinimumEnergy.process 5 (4999/1000) = [BCAction.reject] :=
  (c1_minimumEnergy_rejects_iff_le 5 (4999/1000)).mpr (by norm_num)

/-- C3: with no observer positions configured, MaximumTrajectoryLength
rejects exactly when the trajectory length has reached maxLength, and
otherwise performs limit-next-step(maxLength minus trajectoryLength). -/
theorem c3_maximumTrajectoryLength_no_observers {P : Type}
    (dist : P → P → ℚ) (maxLength length : ℚ) (position : P) :
    (maxLength ≤ length →
      MaximumTrajectoryLength.process dist maxLength [] length position
        = [BCAction.reject]) ∧
    (length < maxLength →
      MaximumTrajectoryLength.process dist maxLength [] length position
        = [BCAction.limitNextStep (maxLength - length)]) := by
  constructor
  · intro h
    simp [MaximumTrajectoryLength.process, h]
  · intro h
    simp [MaximumTrajectoryLength.process, not_le.mpr h]

/-- C3 witness: at maxLength 10 a Candidate with trajectory length 10 is
rejected, and one with trajectory length 9 gets limit-next-step(1). -/
theorem c3_maximumTrajectoryLength_no_observers_witness :
    MaximumTrajectoryLength.process (fun _ _ : Unit => (0:ℚ)) 10 [] 10 ()
        = [BCAction.reject] ∧
    MaximumTrajectoryLength.process (fun _ _ : Unit => (0:ℚ)) 10 [] 9 ()
        = [BCAction.limitNextStep 1] := by
  constructor
  · exact (c3_maximumTrajectoryLength_no_observers
      (fun _ _ : Unit => (0:ℚ)) 10 10 ()).1 (by norm_num)
  · have h := (c3_maximumTrajectoryLength_no_observers
      (fun _ _ : Unit => (0:ℚ)) 10 9 ()).2 (by norm_num)
    norm_num at h
    exact h

/-- C5: DetectionLength rejects exactly in the window where the trajectory
length has reached detLength and was still before it one current step ago,
and outside this window performs limit-next-step(detLength minus
trajectoryLength). -/
theorem c5_detectionLength_reject_iff (detLength length step : ℚ) :
    (DetectionLength.process detLength length step = [BCAction.reject] ↔
      detLength ≤ length ∧ length - step < detLength) ∧
    (¬(detLength ≤ length ∧ length - step < detLength) →
      DetectionLength.process detLength length step
        = [BCAction.limitNextStep (detLength - length)]) := by
  constructor
  · by_cases h : detLength ≤ length ∧ length - step < detLength <;>
      simp [DetectionLength.process, h]
  · intro h
    simp [DetectionLength.process, h]

/-- C5 witness: at detLength 10 a Candidate at length 10 with step 1 is in
the window and rejected; one at length 5 gets limit-next-step(5). -/
theorem c5_detectionLength_reject_iff_witness :
    DetectionLength.process 10 10 1 = [BCAction.reject] ∧
    DetectionLength.process 10 5 1 = [BCAction.limitNextStep 5] := by
  constructor
  · exact (c5_detectionLength_reject_iff 10 10 1).1.mpr (by norm_num)
  · have h := (c5_detectionLength_reject_iff 10 5 1).2 (by norm_num)
    norm_num at h
    exact h

/-- C6: the redshift scaling of a redshift-independent photon field, the
inherited base-class implementation, is exactly 1 for every redshift. -/
theorem c6_redshiftScaling_one (z : ℚ) :
    PhotonField.getRedshiftScaling z = 1 := rfl

/-- C9: when the trajectory length is at least detLength and remains at
least detLength after subtracting the positive current step,
DetectionLength does not reject and instead performs limit-next-step with
the negative value detLength minus trajectoryLength. -/
theorem c9_detectionLength_overshoot (detLength length step : ℚ)
    (h1 : detLength ≤ length) (h2 : detLength ≤ length - step)
    (h3 : 0 < step) :
    DetectionLength.process detLength length step
      = [BCAction.limitNextStep (detLength - length)] ∧
    detLength - length < 0 := by
  constructor
  · simp [DetectionLength.process, not_lt.mpr h2]
  · linarith

/-- C9 witness: detLength 10, trajectory length 15, current step 2. -/
theorem c9_detectionLength_overshoot_witness :
    DetectionLength.process 10 15 2 = [BCAction.limitNextStep (10 - 15)] ∧
    (10:ℚ) - 15 < 0 :=
  c9_detectionLength_overshoot 10 15 2 (by norm_num) (by norm_num)
    (by norm_num)

/-- C2: in MinimumEnergyPerParticleId the rejection outcome for a listed
id is determined by the first matching entry (reject exactly when the
energy is below its threshold), and for an unlisted id by the fallback
threshold minEnergyOthers. -/
theorem c2_first_match_wins (entries : List (Int × ℚ))
    (minEnergyOthers : ℚ) (id : Int) (energy : ℚ) :
    (∀ thr, entries.lookup id = some thr →
      (BCAction.reject ∈
          MinimumEnergyPerParticleId.process entries minEnergyOthers id
            energy
        ↔ energy < thr)) ∧
    (entries.lookup id = none →
      (BCAction.reject ∈
          MinimumEnergyPerParticleId.process entries minEnergyOthers id
            energy
        ↔ energy < minEnergyOthers)) := by
  induction entries with
  | nil =>
    constructor
    · intro thr hthr
      simp [List.lookup] at hthr
    · intro _
      by_cases h : energy < minEnergyOthers <;>
        simp [MinimumEnergyPerParticleId.process, h]
  | cons e rest ih =>
    obtain ⟨pid, thr0⟩ := e
    by_cases hid : id = pid
    · subst hid
      constructor
      · intro thr hthr
        simp [List.lookup] at hthr
        subst hthr
        by_cases hE : energy < thr0 <;>
          simp [MinimumEnergyPerParticleId.process, hE]
      · intro hnone
        simp [List.lookup] at hnone
    · have hbeq : (id == pid) = false := beq_eq_false_iff_ne.mpr hid
      constructor
      · intro thr hthr
        rw [List.lookup, hbeq] at hthr
        simp only [MinimumEnergyPerParticleId.process, if_neg hid]
        exact ih.1 thr hthr
      · intro hnone
        rw [List.lookup, hbeq] at hnone
        simp only [MinimumEnergyPerParticleId.process, if_neg hid]
        exact ih.2 hnone

/-- C2 witness: id 5 listed with threshold 10 and energy 3 is rejected by
its own threshold even though the fallback threshold is only 1; unlisted
id 5 with energy 3 is governed by the fallback threshold 1 and not
rejected. -/
theorem c2_first_match_wins_witness :
    BCAction.reject ∈ MinimumEnergyPerParticleId.process [(5, 10)] 1 5 3 ∧
    BCAction.reject ∉ MinimumEnergyPerParticleId.process [(7, 10)] 1 5 3 := by
  constructor
  · exact ((c2_first_match_wins [(5, 10)] 1 5 3).1 10 rfl).mpr (by norm_num)
  · intro hmem
    have h := ((c2_first_match_wins [(7, 10)] 1 5 3).2 rfl).mp hmem
    norm_num at h

/-- C8: when at least one observer position is configured and every
observer lies at a distance whose sum with the trajectory length reaches
maxLength, MaximumTrajectoryLength::process rejects the Candidate. -/
theorem c8_maximumTrajectoryLength_unreachable {P : Type}
    (dist : P → P → ℚ) (maxLength length : ℚ)
    (observerPositions : List P) (position : P)
    (hne : observerPositions.isEmpty = false)
    (hfar : ∀ o ∈ observerPositions, maxLength ≤ dist position o + length) :
    MaximumTrajectoryLength.process dist maxLength observerPositions length
        position = [BCAction.reject] := by
  have hany : (observerPositions.any fun o =>
      decide (dist position o + length < maxLength)) = false := by
    rw [List.any_eq_false]
    intro o ho
    simpa using hfar o ho
  simp [MaximumTrajectoryLength.process, hne, hany]

/-- C8 witness: one observer at distance 100, trajectory length 5,
maxLength 10: the candidate is rejected although its trajectory length is
still strictly below maxLength. -/
theorem c8_maximumTrajectoryLength_unreachable_witness :
    MaximumTrajectoryLength.process (fun a b : ℚ => |a - b|) 10 [100] 5 0
        = [BCAction.reject] ∧ (5:ℚ) < 10 := by
  constructor
  · refine c8_maximumTrajectoryLength_unreachable
      (fun a b : ℚ => |a - b|) 10 5 [100] 0 rfl ?_
    intro o ho
    have ho1 : o = 100 := by simpa using ho
    subst ho1
    norm_num
  · norm_num

/-- C4: nucleusMass returns the stored table entry when that entry is
positive, and fails with a data-lookup error whose message carries the
identity code when the stored entry is 0 (absent). -/
theorem c4_nucleusMass_lookup (table : List ℚ) (id : Int) :
    (0 < nuclearMassEntry table id →
      nucleusMass table id = Except.ok (nuclearMassEntry table id)) ∧
    (nuclearMassEntry table id = 0 →
      nucleusMass table id
        = Except.error
            ("getNucleusMass: nucleus not found " ++ toString id)) := by
  have hrw : nucleusMass table id =
      if nuclearMassEntry table id = 0 then
        Except.error ("getNucleusMass: nucleus not found " ++ toString id)
      else Except.ok (nuclearMassEntry table id) := rfl
  constructor
  · intro h
    rw [hrw, if_neg (ne_of_gt h)]
  · intro h
    rw [hrw, if_pos h]

/-- C4 witness: for the helium-4 identity code the loaded entry 3728 is
returned; on an all-zero table the lookup fails with the error message
carrying the identity code. -/
theorem c4_nucleusMass_lookup_witness :
    nucleusMass heliumMassTable (nucleusId 4 2) = Except.ok 3728 ∧
    nucleusMass (List.replicate 65 (0:ℚ)) (nucleusId 4 2)
      = Except.error
          ("getNucleusMass: nucleus not found " ++ toString (nucleusId 4 2)) := by
  constructor
  · have h := (c4_nucleusMass_lookup heliumMassTable (nucleusId 4 2)).1
      (by rw [show nuclearMassEntry heliumMassTable (nucleusId 4 2)
                = 3728 from rfl]
          norm_num)
    rw [show nuclearMassEntry heliumMassTable (nucleusId 4 2)
          = 3728 from rfl] at h
    exact h
  · exact (c4_nucleusMass_lookup (List.replicate 65 (0:ℚ))
      (nucleusId 4 2)).2 rfl

/-- C7: invoking MinimumEnergy::process twice on a Candidate that already
violates the predicate writes the same reject tag both times: the tag map
after two invocations equals the tag map after one, and the reject flag
key maps to the reject flag value. -/
theorem c7_reject_idempotent_tags (cfg : RejectConfig) (minEnergy : ℚ)
    (c : Candidate) (h : c.energy ≤ minEnergy) :
    (MinimumEnergy.run cfg minEnergy
        (MinimumEnergy.run cfg minEnergy c)).tags
      = (MinimumEnergy.run cfg minEnergy c).tags ∧
    (MinimumEnergy.run cfg minEnergy c).tags cfg.rejectFlagKey
      = some cfg.rejectFlagValue := by
  have hrun : ∀ d : Candidate, d.energy ≤ minEnergy →
      MinimumEnergy.run cfg minEnergy d = rejectProtocol cfg d := by
    intro d hd
    simp [MinimumEnergy.run, MinimumEnergy.process, not_lt.mpr hd,
      runActions, applyAction]
  have h1 := hrun c h
  have h2 : (MinimumEnergy.run cfg minEnergy c).energy ≤ minEnergy := by
    rw [h1]
    exact h
  rw [hrun _ h2, h1]
  constructor
  · funext k
    by_cases hk : k = cfg.rejectFlagKey <;>
      simp [rejectProtocol, setTag, hk]
  · simp [rejectProtocol, setTag]

/-- C7 witness: a Candidate with energy 3 below minEnergy 5. -/
theorem c7_reject_idempotent_tags_witness :
    (MinimumEnergy.run witnessConfig 5
        (MinimumEnergy.run witnessConfig 5 witnessCandidate)).tags
      = (MinimumEnergy.run witnessConfig 5 witnessCandidate).tags ∧
    (MinimumEnergy.run witnessConfig 5 witnessCandidate).tags
        witnessConfig.rejectFlagKey
      = some witnessConfig.rejectFlagValue :=
  c7_reject_idempotent_tags witnessConfig 5 witnessCandidate
    (by norm_num [witnessCandidate])

/-- When no entry of the id list matches the Candidate id, the scan falls
through to the fallback threshold check. -/
theorem minEnergyPerParticleId_no_match (entries : List (Int × ℚ))
    (minEnergyOthers : ℚ) (id : Int) (energy : ℚ)
    (h : ∀ e ∈ entries, e.1 ≠ id) :
    MinimumEnergyPerParticleId.process entries minEnergyOthers id energy
      = if energy < minEnergyOthers then [BCAction.reject] else [] := by
  induction entries with
  | nil => rfl
  | cons e rest ih =>
    obtain ⟨pid, thr⟩ := e
    have hpid : ¬ id = pid := fun hh =>
      h (pid, thr) (List.mem_cons_self _ _) hh.symm
    simp only [MinimumEnergyPerParticleId.process, if_neg hpid]
    exact ih fun e he => h e (List.mem_cons_of_mem _ he)

/-- C10 counterexample: with the duplicate id list [(5, 10), (5, 1)],
fallback threshold 10, and a Candidate of id 5 and energy 2 (below the
first matching threshold 10 and below the fallback threshold 10), the
reject protocol runs only once, because the second duplicate entry passes
and returns before the fallback check. -/
theorem c10_counterexample_duplicate_ids :
    countRejects
      (MinimumEnergyPerParticleId.process [(5, 10), (5, 1)] 10 5 2) = 1 := rfl

/-- C10 (amended): when the Candidate id occurs exactly once in the id
list and its energy is below both that entry threshold and the fallback
threshold minEnergyOthers, the reject protocol is executed exactly twice
in one process call. -/
theorem c10_unique_match_double_reject (entries : List (Int × ℚ))
    (minEnergyOthers : ℚ) (id : Int) (energy thr : ℚ)
    (huniq : entries.filter (fun e => decide (e.1 = id)) = [(id, thr)])
    (h1 : energy < thr) (h2 : energy < minEnergyOthers) :
    countRejects
      (MinimumEnergyPerParticleId.process entries minEnergyOthers id energy)
      = 2 := by
  induction entries with
  | nil => simp [List.filter] at huniq
  | cons e rest ih =>
    obtain ⟨pid, thr0⟩ := e
    by_cases hpid : pid = id
    · rw [List.filter_cons_of_pos (by simp [hpid])] at huniq
      have hhead : (pid, thr0) = ((id : Int), thr) ∧
          rest.filter (fun e => decide (e.1 = id)) = [] := by
        constructor
        · exact (List.cons_eq_cons.mp huniq).1
        · exact (List.cons_eq_cons.mp huniq).2
      obtain ⟨hpair, hrest⟩ := hhead
      have hthr : thr0 = thr := (Prod.mk.injEq _ _ _ _ ▸ hpair).2
      have hnomatch : ∀ e ∈ rest, e.1 ≠ id := by
        intro e he
        have := List.filter_eq_nil_iff.mp hrest e he
        simpa using this
      simp only [MinimumEnergyPerParticleId.process, if_pos hpid.symm,
        if_pos (hthr ▸ h1)]
      rw [minEnergyPerParticleId_no_match rest minEnergyOthers id energy
        hnomatch, if_pos h2]
      rfl
    · rw [List.filter_cons_of_neg (by simp [hpid])] at huniq
      have hid : ¬ id = pid := fun hh => hpid hh.symm
      simp only [MinimumEnergyPerParticleId.process, if_neg hid]
      exact ih huniq

/-- C10 witness: a single listed entry (5, 10), fallback threshold 20, and
a Candidate of id 5 and energy 2: the reject protocol runs twice. -/
theorem c10_unique_match_double_reject_witness :
    countRejects
      (MinimumEnergyPerParticleId.process [(5, 10)] 20 5 2) = 2 :=
  c10_unique_match_double_reject [(5, 10)] 20 5 2 10 rfl (by norm_num)
    (by norm_num)
